import Mathlib

/-!
Shallow embedding of `src/supplier_app.py` (a Flask + SQLite supplier
directory) and proofs about its request handlers.

Conventions of the embedding:
* the SQLite `suppliers` table is a `List Supplier`, the `users` table a
  `List User`; `fetchone` on `WHERE id = ?` is `List.find?`;
* the flat upload directory is a `List String` of filenames (content is
  irrelevant to every claim); `os.remove` is `List.filter`;
* Python `str` methods used by the app (`strip`, `lower`, `startswith`,
  `isdigit`, `os.path.splitext`, `rsplit('.', 1)`) are modelled over
  `String.data` with ASCII case semantics, which also matches SQLite's
  `LIKE` and `COLLATE NOCASE` (ASCII-only case folding);
* external collaborators (werkzeug's `secure_filename`, password hashing,
  the Azure HTTP responses) are parameters of the model functions.
-/

namespace SupplierApp

/-! ### Python / SQLite string primitives -/

/-- ASCII lower-casing of a character (SQLite `LIKE`/`NOCASE` fold ASCII
`A`–`Z` only; the app's `.lower()` is applied to file extensions, which are
ASCII). -/
def asciiLower (c : Char) : Char :=
  if 'A' ≤ c ∧ c ≤ 'Z' then Char.ofNat (c.toNat + 32) else c

/-- ASCII lower-casing of a string. -/
def lowerStr (s : String) : String := ⟨s.data.map asciiLower⟩

/-- Characters removed by Python's `str.strip()`: everything
`str.isspace()` accepts, i.e. U+0009–U+000D, U+001C–U+001F, space,
U+0085, U+00A0, U+1680, U+2000–U+200A, U+2028, U+2029, U+202F, U+205F and
U+3000 (CPython's `Py_UNICODE_ISSPACE` table). -/
def isPySpace (c : Char) : Bool :=
  ('\t' ≤ c ∧ c ≤ '\r') ∨ ('\x1c' ≤ c ∧ c ≤ '\x1f') ∨ c = ' ' ∨
  c = '\x85' ∨ c = '\xa0' ∨ c = '\u1680' ∨
  ('\u2000' ≤ c ∧ c ≤ '\u200a') ∨ c = '\u2028' ∨ c = '\u2029' ∨
  c = '\u202f' ∨ c = '\u205f' ∨ c = '\u3000'

/-- Python `str.strip()`. -/
def pyStrip (s : String) : String :=
  ⟨((s.data.dropWhile isPySpace).reverse.dropWhile isPySpace).reverse⟩

/-- Python `str.startswith(pre)`. -/
def startsWithB (s pre : String) : Bool :=
  pre.data.isPrefixOf s.data

/-- Python `str.isdigit()` restricted to ASCII digits (the app feeds it
phone numbers). -/
def pyIsdigit (s : String) : Bool :=
  s.data ≠ [] ∧ s.data.all (fun c => '0' ≤ c ∧ c ≤ '9')

/-- SQLite `LIKE` pattern matching (no `ESCAPE` clause): `%` matches any
sequence of zero or more characters, `_` matches exactly one character,
every other pattern character compares literally.  Case folding is done
by the caller (`LIKE` folds ASCII `A`–`Z` only). -/
def likeMatch : List Char → List Char → Bool
  | [], text => text.isEmpty
  | '%' :: ps, text => text.tails.any (fun suffix => likeMatch ps suffix)
  | '_' :: _, [] => false
  | '_' :: ps, _ :: ts => likeMatch ps ts
  | _ :: _, [] => false
  | p :: ps, t :: ts => (p == t) && likeMatch ps ts

/-- SQLite `col LIKE ?` with the bound pattern `'%' + q + '%'`
(`f'%{search_query}%'` in the handler): the query text itself may carry
`%`/`_` wildcards; comparison folds ASCII case on both sides. -/
def likeContains (hay q : String) : Bool :=
  likeMatch ('%' :: (lowerStr q).data ++ ['%']) (lowerStr hay).data

/-- Index (from the left) of the last `'.'` in `l`, if any. -/
def lastDotIdx (l : List Char) : Option Nat :=
  match l.reverse.findIdx? (· = '.') with
  | none => none
  | some r => some (l.length - 1 - r)

/-- Python `os.path.splitext` on a bare filename: split at the last dot
unless every character before it is a dot. -/
def splitext (f : String) : String × String :=
  match lastDotIdx f.data with
  | none => (f, "")
  | some i =>
    if (f.data.take i).any (fun c => c ≠ '.') then
      (⟨f.data.take i⟩, ⟨f.data.drop i⟩)
    else (f, "")

/-- Python `f.rsplit('.', 1)[1]` when `f` contains a dot: the suffix after
the last dot. -/
def afterLastDot (f : String) : String :=
  match f.data.reverse.findIdx? (· = '.') with
  | none => f
  | some r => ⟨(f.data.reverse.take r).reverse⟩

/-! ### Injectivity of `Nat.repr`

The filename collision loop appends `_{counter}` with an incrementing
counter; distinctness of the generated names reduces to injectivity of
decimal printing, which we prove by a parse round-trip. -/

/-- Numeric value of a decimal digit character. -/
def digitVal (c : Char) : Nat := c.toNat - '0'.toNat

/-- Left fold reading a decimal digit list back into a number. -/
def parseDigits : List Char → Nat → Nat
  | [], acc => acc
  | c :: cs, acc => parseDigits cs (acc * 10 + digitVal c)


/-! ### File Store (`save_upload`, `generate_qr_code`)

The upload directory is a `List String` of filenames.  The source's
`while os.path.exists(...)` loop is embedded with explicit fuel
`files.length`, which we prove sufficient (pigeonhole over the directory
listing, using injectivity of the decimal counter). -/

/-- Candidate name tried by the collision loop at a given counter value:
`f"{basename}_{counter}{ext}"`. -/
def suffixed (basename ext : String) (counter : Nat) : String :=
  basename ++ "_" ++ toString counter ++ ext


/-- The source's `while unique_filename exists: unique_filename =
f"{basename}_{counter}{ext}"; counter += 1`, with explicit fuel.  When the
fuel is exhausted the current candidate is returned; `freshLoop_not_mem`
shows fuel `files.length` never reaches that case. -/
def freshLoop (files : List String) (basename ext : String) :
    Nat → Nat → String
  | counter, 0 => suffixed basename ext counter
  | counter, fuel + 1 =>
    if suffixed basename ext counter ∈ files then
      freshLoop files basename ext (counter + 1) fuel
    else suffixed basename ext counter


/-- Collision-avoiding name choice shared by `save_upload` and
`generate_qr_code`: try `first`, then `basename_1ext`, `basename_2ext`, …
until a name not present in the directory is found. -/
def uniqueName (files : List String) (first basename ext : String) : String :=
  if first ∈ files then freshLoop files basename ext 1 files.length
  else first


/-- `ALLOWED_EXTENSIONS` from the source configuration. -/
def ALLOWED_EXTENSIONS : List String :=
  ["png", "jpg", "jpeg", "gif", "bmp", "pdf", "doc", "docx"]

/-- `allowed_file`: the name contains a dot and its lower-cased last
extension is in the allow-list. -/
def allowed_file (filename : String) : Bool :=
  filename.data.contains '.' &&
    ALLOWED_EXTENSIONS.contains (lowerStr (afterLastDot filename))

/-- `save_upload(file_storage)`.  The upload is `none` (no file part) or
`some` of the client-supplied filename; werkzeug's `secure_filename` is an
external collaborator passed as a parameter.  Returns the stored name
(`""` for a rejected upload) and the updated directory. -/
def save_upload (secure_filename : String → String) (files : List String)
    (upload : Option String) : String × List String :=
  match upload with
  | none => ("", files)
  | some orig =>
    if orig = "" then ("", files)
    else
      let filename := secure_filename orig
      if ¬ allowed_file filename then ("", files)
      else
        let (basename, ext) := splitext filename
        let unique_filename := uniqueName files filename basename ext
        (unique_filename, unique_filename :: files)

/-- Python `str.endswith`. -/
def endsWithB (s suf : String) : Bool :=
  suf.data.isSuffixOf s.data

/-- `generate_qr_code(data, filename)`: empty data produces no file;
otherwise a QR image is written under a collision-avoiding name.  The
image bytes are irrelevant to the claims; only the name is tracked. -/
def generate_qr_code (files : List String) (data filename : String) :
    String × List String :=
  if data = "" then ("", files)
  else
    let (basename, ext0) := splitext filename
    let ext := if ext0 = "" then ".png" else ext0
    let first := if endsWithB filename ext then filename else filename ++ ".png"
    let unique_filename := uniqueName files first basename ext
    (unique_filename, unique_filename :: files)

/-! ### Data model -/

/-- A row of the `suppliers` table.  Optional text columns hold `""` for
SQL NULL (the handlers only ever write strings and test them by Python
truthiness); `user_id` is genuinely nullable (legacy rows). -/
structure Supplier where
  id : Nat
  name : String
  category : String
  description : String
  contact : String
  whatsapp_link : String
  wechat_link : String
  rating : String
  photo_filename : String
  catalog_filename : String
  created_at : String
  user_id : Option Nat
deriving DecidableEq, Repr

/-- A row of the `users` table. -/
structure User where
  id : Nat
  username : String
  password_hash : String
deriving DecidableEq, Repr

/-- Handler responses, abstracted from Flask: rendered page (with the
inline error message where one is set), redirects, `abort(404)`,
`abort(403)`. -/
inductive HResp where
  | html (error : String)
  | redirectTo (target : String)
  | redirectIndex
  | redirectLogin
  | notFound
  | forbidden
deriving DecidableEq, Repr

/-- `SELECT * FROM suppliers WHERE id = ? ... fetchone()`. -/
def getSupplier (db : List Supplier) (supplier_id : Nat) : Option Supplier :=
  db.find? (fun s => s.id == supplier_id)

/-- The ownership rejection shared by view/edit/delete:
`supplier['user_id'] is not None and supplier['user_id'] != session.get('user_id')`. -/
def ownDenied (s : Supplier) (user_id : Nat) : Bool :=
  match s.user_id with
  | some owner => owner != user_id
  | none => false

/-- `os.remove` guarded by `os.path.exists` (or with `FileNotFoundError`
swallowed): total removal of a name from the directory. -/
def removeFile (files : List String) (name : String) : List String :=
  files.filter (fun f => f != name)

/-- `ADMIN_EMAIL` from the source configuration. -/
def ADMIN_EMAIL : String := "alexandrebetonpro@gmail.com"

/-- `is_admin()`: the session's stored username equals `ADMIN_EMAIL`. -/
def is_admin (sessionUsername : Option String) : Bool :=
  sessionUsername == some ADMIN_EMAIL

/-! ### `GET /` (`index`) -/

/-- `CASE rating WHEN 'green' THEN 1 WHEN 'yellow' THEN 2 WHEN 'red'
THEN 3 ELSE 4 END`. -/
def ratingRank (r : String) : Nat :=
  if r = "green" then 1 else if r = "yellow" then 2 else if r = "red" then 3 else 4

/-- `ORDER BY created_at DESC, name COLLATE NOCASE ASC` as a boolean
comparator (via a lexicographic key). -/
def defaultLe (a b : Supplier) : Bool :=
  decide ((toLex (OrderDual.toDual a.created_at, lowerStr a.name) : Lex (Stringᵒᵈ × String)) ≤
    toLex (OrderDual.toDual b.created_at, lowerStr b.name))

/-- `ORDER BY category COLLATE NOCASE ASC, name COLLATE NOCASE ASC`. -/
def categoryLe (a b : Supplier) : Bool :=
  decide ((toLex (lowerStr a.category, lowerStr a.name) : Lex (String × String)) ≤
    toLex (lowerStr b.category, lowerStr b.name))

/-- `ORDER BY CASE rating ... END, created_at DESC, name COLLATE NOCASE ASC`. -/
def ratingLe (a b : Supplier) : Bool :=
  decide ((toLex (ratingRank a.rating,
      (toLex (OrderDual.toDual a.created_at, lowerStr a.name) : Lex (Stringᵒᵈ × String))) :
        Lex (Nat × Lex (Stringᵒᵈ × String))) ≤
    toLex (ratingRank b.rating, toLex (OrderDual.toDual b.created_at, lowerStr b.name)))

/-- The `WHERE` clause of `index`: `user_id = ?` (SQL equality, false on
NULL) `AND`, when a search term is present, `(name LIKE ? OR category
LIKE ? OR description LIKE ?)`. -/
def rowMatches (user_id : Nat) (search_query : String) (s : Supplier) : Bool :=
  s.user_id == some user_id &&
    (search_query == "" ||
      (likeContains s.name search_query || likeContains s.category search_query ||
        likeContains s.description search_query))

/-- The `index` route: list the session user's suppliers, filtered by the
stripped `search` parameter and ordered by the stripped `sort` parameter.
SQLite leaves the relative order of `ORDER BY`-equal rows unspecified;
`mergeSort` by the same keys is one refinement of that contract. -/
def index (db : List Supplier) (user_id : Nat) (search sort : String) :
    List Supplier :=
  let search_query := pyStrip search
  let sort_key := pyStrip sort
  let rows := db.filter (rowMatches user_id search_query)
  if sort_key = "category" then rows.mergeSort categoryLe
  else if sort_key = "rating" then rows.mergeSort ratingLe
  else rows.mergeSort defaultLe

/-- The query string of a list request.  `rating` and `category` are
repeatable parameters; the handler reads only `search` and `sort`
(`request.args.get('search', '')`, `request.args.get('sort', '')`) and
never reads `rating` or `category`. -/
structure QueryArgs where
  search : String
  sort : String
  rating : List String
  category : List String
deriving DecidableEq, Repr

/-- `index` at the request level: the repeatable `rating`/`category`
parameters are ignored by the source. -/
def index_req (db : List Supplier) (user_id : Nat) (args : QueryArgs) :
    List Supplier :=
  index db user_id args.search args.sort

/-! ### `GET /supplier/<id>` (`view_supplier`) -/

/-- The `view_supplier` route: 404 on a missing row, 403 on an owned row
of another user, otherwise regenerate the QR images and render. -/
def view_supplier (db : List Supplier) (files : List String)
    (user_id supplier_id : Nat) : HResp × List String :=
  match getSupplier db supplier_id with
  | none => (.notFound, files)
  | some supplier =>
    if ownDenied supplier user_id then (.forbidden, files)
    else
      let files₁ :=
        if supplier.whatsapp_link != "" then
          let whatsapp_link :=
            if pyIsdigit supplier.whatsapp_link then
              "https://wa.me/" ++ supplier.whatsapp_link
            else supplier.whatsapp_link
          (generate_qr_code files whatsapp_link
            ("whatsapp_qr_" ++ toString supplier_id ++ ".png")).2
        else files
      let files₂ :=
        if supplier.wechat_link != "" then
          (generate_qr_code files₁ supplier.wechat_link
            ("wechat_qr_" ++ toString supplier_id ++ ".png")).2
        else files₁
      (.html "", files₂)

/-! ### `GET,POST /edit/<id>` (`edit_supplier`) -/

/-- HTTP method of a form route. -/
inductive Method where
  | get
  | post
deriving DecidableEq, Repr

/-- The text fields of the add/edit form (already the values of
`request.form.get(..., '')`). -/
structure SupplierForm where
  name : String
  category : String
  description : String
  contact : String
  whatsapp : String
  wechat : String
  rating : String
deriving DecidableEq, Repr

/-- The `edit_supplier` route.  `photoUpload`/`catalogUpload` are
`request.files.get('photo')`/`('catalog')`: `none` for an absent part,
`some` of the client filename otherwise. -/
def edit_supplier (secure_filename : String → String) (db : List Supplier)
    (files : List String) (user_id supplier_id : Nat) (method : Method)
    (form : SupplierForm) (photoUpload catalogUpload : Option String) :
    HResp × List Supplier × List String :=
  match getSupplier db supplier_id with
  | none => (.notFound, db, files)
  | some supplier =>
    if ownDenied supplier user_id then (.forbidden, db, files)
    else
      match method with
      | .get => (.html "", db, files)
      | .post =>
        let name := pyStrip form.name
        let category := pyStrip form.category
        let description := pyStrip form.description
        let contact := pyStrip form.contact
        let whatsapp := pyStrip form.whatsapp
        let wechat := pyStrip form.wechat
        let rating := pyStrip form.rating
        -- Photo replacement: `if new_photo and new_photo.filename:` —
        -- delete the old file, then store the new upload.
        let (photo_filename, files₁) :=
          match photoUpload with
          | some pf =>
            if pf != "" then
              let files₀ :=
                if supplier.photo_filename != "" then
                  removeFile files supplier.photo_filename
                else files
              save_upload secure_filename files₀ (some pf)
            else (supplier.photo_filename, files)
          | none => (supplier.photo_filename, files)
        -- Catalog replacement, identically.
        let (catalog_filename, files₂) :=
          match catalogUpload with
          | some cf =>
            if cf != "" then
              let files₀ :=
                if supplier.catalog_filename != "" then
                  removeFile files₁ supplier.catalog_filename
                else files₁
              save_upload secure_filename files₀ (some cf)
            else (supplier.catalog_filename, files₁)
          | none => (supplier.catalog_filename, files₁)
        let db' := db.map (fun r =>
          if r.id = supplier_id then
            { r with
              name := name, category := category, description := description,
              contact := contact, whatsapp_link := whatsapp,
              wechat_link := wechat, rating := rating,
              photo_filename := photo_filename,
              catalog_filename := catalog_filename }
          else r)
        (.redirectIndex, db', files₂)

/-! ### `GET /delete/<id>` (`delete_supplier`) -/

/-- The `delete_supplier` route: remove the row, its photo/catalog files,
and every file whose name starts with `whatsapp_qr_{id}` or
`wechat_qr_{id}`. -/
def delete_supplier (db : List Supplier) (files : List String)
    (user_id supplier_id : Nat) : HResp × List Supplier × List String :=
  match getSupplier db supplier_id with
  | none => (.notFound, db, files)
  | some supplier =>
    if ownDenied supplier user_id then (.forbidden, db, files)
    else
      let files₁ :=
        if supplier.photo_filename != "" then
          removeFile files supplier.photo_filename
        else files
      let files₂ :=
        if supplier.catalog_filename != "" then
          removeFile files₁ supplier.catalog_filename
        else files₁
      let files₃ := files₂.filter (fun fname =>
        !(startsWithB fname ("whatsapp_qr_" ++ toString supplier_id) ||
          startsWithB fname ("wechat_qr_" ++ toString supplier_id)))
      let db' := db.filter (fun r => r.id != supplier_id)
      (.redirectIndex, db', files₃)

/-! ### `GET,POST /register` and `GET,POST /login` -/

/-- `MAX(id) + 1`, standing in for SQLite `AUTOINCREMENT` (the claims
never depend on the generated value). -/
def nextUserId (users : List User) : Nat :=
  (users.map (·.id)).foldr max 0 + 1

/-- The `register` route.  `generate_password_hash` (werkzeug) is an
external collaborator passed as a parameter; `sessionUsername` is the
session's stored username, if any. -/
def register (generate_password_hash : String → String) (users : List User)
    (sessionUsername : Option String) (method : Method)
    (username password confirm : String) : HResp × List User :=
  let count := users.length
  if count > 0 && !is_admin sessionUsername then (.forbidden, users)
  else
    match method with
    | .get => (.html "", users)
    | .post =>
      let username := pyStrip username
      let password := pyStrip password
      let confirm := pyStrip confirm
      if username == "" || password == "" then
        (.html "error_username_password_required", users)
      else if password != confirm then
        (.html "error_password_mismatch", users)
      else if (users.find? (fun u => u.username == username)).isSome then
        (.html "error_username_taken", users)
      else
        (.redirectLogin,
          users ++ [{ id := nextUserId users, username := username,
                      password_hash := generate_password_hash password }])

/-- The POST branch of the `login` route.  `check_password_hash`
(werkzeug) is an external collaborator; `next_q` is
`request.args.get('next')`.  The open-redirect guard of the source is
exactly `next_page and not next_page.startswith('/')`. -/
def login (check_password_hash : String → String → Bool) (users : List User)
    (username password : String) (next_q : Option String) : HResp :=
  let username := pyStrip username
  match users.find? (fun u => u.username == username) with
  | some row =>
    if check_password_hash row.password_hash password then
      let next_page : Option String :=
        match next_q with
        | some np => if np != "" && !startsWithB np "/" then none else next_q
        | none => none
      match next_page with
      | some np => if np == "" then .redirectTo "/" else .redirectTo np
      | none => .redirectTo "/"
    else .html "error_bad_credentials"
  | none => .html "error_bad_credentials"

/-! ### `POST /analyze_card` (Card-OCR bridge)

The Azure responses are arbitrary JSON values; Python's dynamic dict/list
operations are modelled in `Except Unit` (an `error` is a raised
`KeyError`/`TypeError`/`AttributeError`/`IndexError`). -/

/-- JSON values as delivered by `response.json()`. -/
inductive Json where
  | null
  | bool (b : Bool)
  | str (s : String)
  | num (n : Int)
  | arr (xs : List Json)
  | obj (kvs : List (String × Json))

/-- Key lookup in a JSON object. -/
def jget (kvs : List (String × Json)) (k : String) : Option Json :=
  (kvs.find? (fun p => p.1 == k)).map (·.2)

/-- Python `d[k]`: raises on a non-dict or a missing key. -/
def pyGetItem (j : Json) (k : String) : Except Unit Json :=
  match j with
  | .obj kvs =>
    match jget kvs k with
    | some v => .ok v
    | none => .error ()
  | _ => .error ()

/-- Python `d.get(k, default)`: raises on a non-dict. -/
def pyGetDefault (j : Json) (k : String) (dflt : Json) : Except Unit Json :=
  match j with
  | .obj kvs => .ok ((jget kvs k).getD dflt)
  | _ => .error ()

/-- Python truthiness of a JSON value. -/
def pyTruthy : Json → Bool
  | .null => false
  | .bool b => b
  | .str s => s != ""
  | .num n => n != 0
  | .arr xs => !xs.isEmpty
  | .obj kvs => !kvs.isEmpty

/-- Python `x[0]`: first element of a list, first character of a string,
raises otherwise (including `KeyError` on our string-keyed dicts). -/
def pyIndex0 (j : Json) : Except Unit Json :=
  match j with
  | .arr (x :: _) => .ok x
  | .str ⟨c :: _⟩ => .ok (.str ⟨[c]⟩)
  | _ => .error ()

/-- Python `for item in x`: elements of a list, characters of a string,
keys of a dict, raises otherwise. -/
def pyIter (j : Json) : Except Unit (List Json) :=
  match j with
  | .arr xs => .ok xs
  | .str s => .ok (s.data.map (fun c => .str ⟨[c]⟩))
  | .obj kvs => .ok (kvs.map (fun p => .str p.1))
  | _ => .error ()

/-- Python `a + b` on values expected to be strings: `TypeError`
otherwise. -/
def pyAddStrs (a b : Json) : Except Unit String :=
  match a, b with
  | .str x, .str y => .ok (x ++ y)
  | _, _ => .error ()

/-- The `for item in names_list` loop of `analyze_card`, collecting
`(first + ' ' + last).strip()` for each entry when non-empty. -/
def collectNames : List Json → Except Unit (List String)
  | [] => .ok []
  | item :: rest => do
    let obj ← pyGetDefault item "valueObject" (.obj [])
    let firstJ ← pyGetDefault obj "firstName" (.obj [])
    let firstV ← pyGetDefault firstJ "value" (.str "")
    let lastJ ← pyGetDefault obj "lastName" (.obj [])
    let lastV ← pyGetDefault lastJ "value" (.str "")
    let fs ← pyAddStrs firstV (.str " ")
    let combined0 ← pyAddStrs (.str fs) lastV
    let combined := pyStrip combined0
    let tail ← collectNames rest
    return (if combined != "" then combined :: tail else tail)

/-- The phone half of the extraction: `mobilePhones[0].valueString`,
falling back to `companyPhones[0].valueString` when falsy. -/
def extractPhone (fields : Json) : Except Unit Json := do
  let mp ← pyGetDefault fields "mobilePhones" (.obj [])
  let mobiles ← pyGetDefault mp "valueArray" (.arr [])
  let phone ←
    if pyTruthy mobiles then do
      let m0 ← pyIndex0 mobiles
      pyGetDefault m0 "valueString" (.str "")
    else pure (Json.str "")
  if pyTruthy phone then pure phone
  else do
    let cp ← pyGetDefault fields "companyPhones" (.obj [])
    let companies ← pyGetDefault cp "valueArray" (.arr [])
    if pyTruthy companies then do
      let c0 ← pyIndex0 companies
      pyGetDefault c0 "valueString" (.str "")
    else pure phone

/-- The whole `try: ... except Exception: pass` extraction block of
`analyze_card`.  On a raised exception the values assigned so far are
kept: `name` is only assigned after the name loop finishes, so a raise
during the phone half preserves `name` while leaving `phone` empty. -/
def extractNamePhone (result_data : Json) : String × Json :=
  match (do
      let ar ← pyGetItem result_data "analyzeResult"
      let documents ← pyGetItem ar "documents"
      if pyTruthy documents then do
        let d0 ← pyIndex0 documents
        let fields ← pyGetDefault d0 "fields" (.obj [])
        let cn ← pyGetDefault fields "contactNames" (.obj [])
        let names_list ← pyGetDefault cn "valueArray" (.arr [])
        let items ← pyIter names_list
        let full_names ← collectNames items
        return some (fields, full_names)
      else return none : Except Unit (Option (Json × List String))) with
  | .error _ => ("", .str "")
  | .ok none => ("", .str "")
  | .ok (some (fields, full_names)) =>
    let name := match full_names with
      | n :: _ => n
      | [] => ""
    match extractPhone fields with
    | .ok phone => (name, phone)
    | .error _ => (name, .str "")

/-- Poll ceiling of the source: `for _ in range(30)`. -/
def pollAttempts : Nat := 30

/-- Poll interval of the source: `time.sleep(1)`. -/
def pollIntervalSeconds : Nat := 1

/-- Outcome of the polling loop. -/
inductive PollOutcome where
  | succeeded (body : Json)
  | failed
  | incomplete
  | crash

/-- The polling loop of `analyze_card`.  `poll i` is the `i`-th response:
`none` models a raised request/JSON-decoding exception (swallowed by the
`except Exception: continue`).  Each iteration sleeps
`pollIntervalSeconds` before polling; the second component counts the
seconds slept.  A non-dict poll body makes `result_json.get('status')`
raise outside the `try`, an uncaught `crash`. -/
def pollLoop (poll : Nat → Option Json) : Nat → Nat → PollOutcome × Nat
  | _, 0 => (.incomplete, 0)
  | i, fuel + 1 =>
    match poll i with
    | none =>
      let (r, slept) := pollLoop poll (i + 1) fuel
      (r, slept + pollIntervalSeconds)
    | some result_json =>
      match result_json with
      | .obj kvs =>
        match jget kvs "status" with
        | some (.str st) =>
          if st = "succeeded" then (.succeeded result_json, pollIntervalSeconds)
          else if st = "failed" then (.failed, pollIntervalSeconds)
          else
            let (r, slept) := pollLoop poll (i + 1) fuel
            (r, slept + pollIntervalSeconds)
        | _ =>
          let (r, slept) := pollLoop poll (i + 1) fuel
          (r, slept + pollIntervalSeconds)
      | _ => (.crash, pollIntervalSeconds)

/-- Result of the whole `analyze_card` route. -/
inductive AnalyzeOutcome where
  | errNoImage
  | errConfig
  | errConnection
  | errSubmit
  | errNoLocation
  | errFailed
  | errIncomplete
  | crash
  | ok (name : String) (phone : Json)

/-- The poll-and-extract tail of `analyze_card` (after an accepted
submission). -/
def analyze_poll (poll : Nat → Option Json) : AnalyzeOutcome :=
  match (pollLoop poll 0 pollAttempts).1 with
  | .succeeded result_data =>
    let (name, phone) := extractNamePhone result_data
    .ok name phone
  | .failed => .errFailed
  | .incomplete => .errIncomplete
  | .crash => .crash

/-- The submission response: a raised `requests.post`, or a status code
with the optional `Operation-Location` header. -/
inductive SubmitResult where
  | raised
  | resp (status : Nat) (opLocation : Option String)
deriving DecidableEq, Repr

/-- The whole `analyze_card` route. -/
def analyze_card (upload : Option String) (endpoint key : Option String)
    (submit : SubmitResult) (poll : Nat → Option Json) : AnalyzeOutcome :=
  match upload with
  | none => .errNoImage
  | some fname =>
    if fname == "" then .errNoImage
    else
      let configured := fun v : Option String =>
        match v with
        | some s => s != ""
        | none => false
      if !configured endpoint || !configured key then .errConfig
      else
        match submit with
        | .raised => .errConnection
        | .resp status opLocation =>
          if status != 202 then .errSubmit
          else
            match opLocation with
            | none => .errNoLocation
            | some loc =>
              if loc == "" then .errNoLocation
              else analyze_poll poll


/-- A poll response on which the source loop keeps polling: a raised
request (`none`), or a dict body whose `status` is neither the string
`succeeded` nor `failed`.  A non-dict body is excluded (it crashes the
loop). -/
def nonTerminalResp : Option Json → Bool
  | none => true
  | some (.obj kvs) =>
    match jget kvs "status" with
    | some (.str st) => st != "succeeded" && st != "failed"
    | _ => true
  | some _ => false

/-- A dict poll body whose `status` is the string `succeeded`. -/
def isSucceededBody : Json → Bool
  | .obj kvs =>
    match jget kvs "status" with
    | some (.str st) => st == "succeeded"
    | _ => false
  | _ => false

/-! ### Definitions following the spec's words (for refinement claims) -/

/-- Modelled from the spec: a `next` value is a same-origin relative path
when it starts with `/` but is not a protocol-relative (network-path)
reference `//host/...`, which the browser resolves against a foreign
origin. -/
def isSameOriginRelativePath (s : String) : Bool :=
  startsWithB s "/" && !startsWithB s "//"

/-- The free-text filter exactly as the handler applies it: an empty
(stripped) search matches everything, otherwise the SQLite
`LIKE '%q%'` test (ASCII-case-insensitive, `%`/`_` wildcards honoured)
against name, category or description. -/
def searchFilterSat (search : String) (s : Supplier) : Bool :=
  pyStrip search == "" ||
    (likeContains s.name (pyStrip search) ||
      likeContains s.category (pyStrip search) ||
      likeContains s.description (pyStrip search))

/-- Modelled from the spec: the optional multi-select rating-set filter —
an empty selection matches everything, otherwise the row's rating must be
one of the selected values. -/
def ratingFilterSat (ratings : List String) (s : Supplier) : Bool :=
  ratings.isEmpty || ratings.contains s.rating

/-- Modelled from the spec: the optional multi-select category-set
filter. -/
def categoryFilterSat (categories : List String) (s : Supplier) : Bool :=
  categories.isEmpty || categories.contains s.category

/-! ### Helper lemmas for the definitions above -/

theorem digitVal_digitChar {d : Nat} (h : d < 10) :
    digitVal (Nat.digitChar d) = d := by
  interval_cases d <;> decide

theorem parseDigits_toDigitsCore :
    ∀ (fuel n acc : Nat) (ds : List Char), n < fuel →
      ∃ k, parseDigits (Nat.toDigitsCore 10 fuel n ds) acc =
            parseDigits ds (acc * 10 ^ k + n) ∧ n < 10 ^ k ∧ 0 < k := by
  intro fuel
  induction fuel with
  | zero => intro n acc ds h; omega
  | succ fuel ih =>
    intro n acc ds h
    simp only [Nat.toDigitsCore]
    by_cases hz : n / 10 = 0
    · refine ⟨1, ?_, ?_, one_pos⟩
      · have hn : n % 10 = n := by omega
        have hd : digitVal (Nat.digitChar n) = n := digitVal_digitChar (by omega)
        simp only [hz, if_true, parseDigits, pow_one, hn, hd]
      · have : n < 10 := by omega
        simpa [pow_one] using this
    · have hfuel : n / 10 < fuel := by
        have h10 : 10 ≤ n := by
          by_contra hlt
          exact hz (Nat.div_eq_of_lt (by omega))
        have : n / 10 < n := Nat.div_lt_self (by omega) (by norm_num)
        omega
      obtain ⟨k, hk, hlt, hkpos⟩ :=
        ih (n / 10) acc (Nat.digitChar (n % 10) :: ds) hfuel
      refine ⟨k + 1, ?_, ?_, by omega⟩
      · simp only [hz, if_false] at *
        rw [hk]
        simp only [parseDigits,
          digitVal_digitChar (Nat.mod_lt _ (by norm_num) : n % 10 < 10)]
        congr 1
        have : n = 10 * (n / 10) + n % 10 := (Nat.div_add_mod' n 10).symm ▸ by
          omega
        ring_nf
        omega
      · have : n < 10 * (n / 10) + 10 := by omega
        calc n < 10 * (n / 10) + 10 := this
          _ ≤ 10 * 10 ^ k := by
              have : n / 10 + 1 ≤ 10 ^ k := hlt
              omega
          _ = 10 ^ (k + 1) := by ring

theorem parseDigits_repr (n : Nat) : parseDigits (Nat.repr n).data 0 = n := by
  obtain ⟨k, hk, -, -⟩ :=
    parseDigits_toDigitsCore (n + 1) n 0 [] (Nat.lt_succ_self n)
  simpa [Nat.repr, Nat.toDigits, List.asString, parseDigits] using hk

theorem repr_injective : Function.Injective Nat.repr := by
  intro m n h
  have := parseDigits_repr m
  rw [h, parseDigits_repr] at this
  omega

theorem suffixed_injective (basename ext : String) :
    Function.Injective (suffixed basename ext) := by
  intro k₁ k₂ h
  have hdata := congrArg String.data h
  simp only [suffixed, String.data_append] at hdata
  have hdata' : (basename.data ++ ['_']) ++ ((toString k₁).data ++ ext.data) =
      (basename.data ++ ['_']) ++ ((toString k₂).data ++ ext.data) := by
    simpa [List.append_assoc] using hdata
  have h₃ : (toString k₁).data = (toString k₂).data :=
    List.append_cancel_right (List.append_cancel_left hdata')
  exact repr_injective (String.ext h₃)

theorem freshLoop_not_mem (files : List String) (basename ext : String) :
    ∀ (fuel counter : Nat),
      (∃ k ≤ fuel, suffixed basename ext (counter + k) ∉ files) →
      freshLoop files basename ext counter fuel ∉ files := by
  intro fuel
  induction fuel with
  | zero =>
    intro counter ⟨k, hk, hfree⟩
    interval_cases k
    simpa [freshLoop] using hfree
  | succ fuel ih =>
    intro counter ⟨k, hk, hfree⟩
    rw [freshLoop]
    by_cases hmem : suffixed basename ext counter ∈ files
    · simp only [hmem, if_true]
      apply ih
      have hkpos : 0 < k := by
        rcases Nat.eq_zero_or_pos k with rfl | hp
        · simp at hfree; exact absurd hmem hfree
        · exact hp
      exact ⟨k - 1, by omega, by
        have : counter + 1 + (k - 1) = counter + k := by omega
        rw [this]; exact hfree⟩
    · simp [hmem]

theorem exists_suffixed_free (files : List String) (basename ext : String)
    (counter : Nat) :
    ∃ k ≤ files.length, suffixed basename ext (counter + k) ∉ files := by
  by_contra hall
  push_neg at hall
  have hsub : (Finset.range (files.length + 1)).image
      (fun k => suffixed basename ext (counter + k)) ⊆ files.toFinset := by
    intro x hx
    simp only [Finset.mem_image, Finset.mem_range] at hx
    obtain ⟨k, hk, rfl⟩ := hx
    exact List.mem_toFinset.mpr (hall k (by omega))
  have hinj : Function.Injective (fun k => suffixed basename ext (counter + k)) :=
    fun a b h => by
      have := suffixed_injective basename ext h
      omega
  have hcard := Finset.card_le_card hsub
  rw [Finset.card_image_of_injective _ hinj, Finset.card_range] at hcard
  have := files.toFinset_card_le
  omega

theorem uniqueName_not_mem (files : List String) (first basename ext : String) :
    uniqueName files first basename ext ∉ files := by
  rw [uniqueName]
  by_cases hmem : first ∈ files
  · simp only [hmem, if_true]
    apply freshLoop_not_mem
    exact exists_suffixed_free files basename ext 1
  · simp [hmem]

theorem pyStrip_empty : pyStrip "" = "" := by decide

theorem pyStrip_rating : pyStrip "rating" = "rating" := by decide

theorem mem_index (db : List Supplier) (user_id : Nat) (search sort : String)
    (s : Supplier) :
    s ∈ index db user_id search sort ↔
      s ∈ db ∧ rowMatches user_id (pyStrip search) s = true := by
  simp only [index]
  split_ifs <;> simp [List.mem_mergeSort, List.mem_filter]

theorem ratingLe_trans (a b c : Supplier) :
    ratingLe a b → ratingLe b c → ratingLe a c := by
  intro hab hbc
  simp only [ratingLe, decide_eq_true_eq] at *
  exact le_trans hab hbc

theorem ratingLe_total (a b : Supplier) : ratingLe a b || ratingLe b a := by
  simp only [ratingLe, Bool.or_eq_true, decide_eq_true_eq]
  exact le_total _ _

theorem ratingLe_iff (a b : Supplier) :
    ratingLe a b = true ↔
      (ratingRank a.rating < ratingRank b.rating ∨
        (ratingRank a.rating = ratingRank b.rating ∧
          (b.created_at < a.created_at ∨
            (a.created_at = b.created_at ∧
              lowerStr a.name ≤ lowerStr b.name)))) := by
  simp only [ratingLe, decide_eq_true_eq, Prod.Lex.le_iff, Prod.Lex.lt_iff,
    OrderDual.toDual_lt_toDual, OrderDual.toDual_inj]

theorem getSupplier_map (db : List Supplier) (sid : Nat) (f : Supplier → Supplier)
    (hf : ∀ r, (f r).id = r.id) :
    getSupplier (db.map f) sid = (getSupplier db sid).map f := by
  induction db with
  | nil => rfl
  | cons r rest ih =>
    simp only [getSupplier, List.map_cons, List.find?_cons, hf r] at *
    cases hrc : (r.id == sid) <;> simp [ih]

theorem mem_removeFile (files : List String) (name x : String) :
    x ∈ removeFile files name ↔ x ∈ files ∧ x ≠ name := by
  simp [removeFile]

theorem suffixed_ne_empty (basename ext : String) (counter : Nat) :
    suffixed basename ext counter ≠ "" := by
  simp [suffixed, String.ext_iff, String.data_append]

theorem freshLoop_is_suffixed (files : List String) (basename ext : String) :
    ∀ fuel counter, ∃ c,
      freshLoop files basename ext counter fuel = suffixed basename ext c := by
  intro fuel
  induction fuel with
  | zero => intro counter; exact ⟨counter, rfl⟩
  | succ fuel ih =>
    intro counter
    rw [freshLoop]
    by_cases hmem : suffixed basename ext counter ∈ files
    · simpa [hmem] using ih (counter + 1)
    · exact ⟨counter, by simp [hmem]⟩

theorem uniqueName_ne_empty (files : List String) (first basename ext : String)
    (hfirst : first ≠ "") : uniqueName files first basename ext ≠ "" := by
  rw [uniqueName]
  by_cases hmem : first ∈ files
  · simp only [hmem, if_true]
    obtain ⟨c, hc⟩ := freshLoop_is_suffixed files basename ext files.length 1
    rw [hc]
    exact suffixed_ne_empty basename ext c
  · simpa [hmem] using hfirst

theorem allowed_file_ne_empty (f : String) (h : allowed_file f = true) :
    f ≠ "" := by
  intro heq
  subst heq
  exact absurd h (by decide)

theorem pollLoop_incomplete (poll : Nat → Option Json) :
    ∀ (fuel start : Nat),
      (∀ i, start ≤ i → i < start + fuel → nonTerminalResp (poll i) = true) →
      pollLoop poll start fuel = (.incomplete, fuel * pollIntervalSeconds) := by
  intro fuel
  induction fuel with
  | zero => intro start _; simp [pollLoop]
  | succ fuel ih =>
    intro start h
    have h0 : nonTerminalResp (poll start) = true := h start le_rfl (by omega)
    have hrec := ih (start + 1) (fun i h1 h2 => h i (by omega) (by omega))
    rw [pollLoop]
    cases hp : poll start with
    | none =>
      simp only [hrec]
      exact congrArg _ (by ring)
    | some j =>
      cases j with
      | obj kvs =>
        simp only [nonTerminalResp, hp] at h0
        cases hj : jget kvs "status" with
        | none =>
          simp only [hj, hrec]
          exact congrArg _ (by ring)
        | some v =>
          cases v with
          | str st =>
            rw [hj] at h0
            have hne : ¬ (st = "succeeded") ∧ ¬ (st = "failed") := by
              simpa using h0
            simp only [hj, if_neg hne.1, if_neg hne.2, hrec]
            exact congrArg _ (by ring)
          | null => simp only [hj, hrec]; exact congrArg _ (by ring)
          | bool b => simp only [hj, hrec]; exact congrArg _ (by ring)
          | num n => simp only [hj, hrec]; exact congrArg _ (by ring)
          | arr xs => simp only [hj, hrec]; exact congrArg _ (by ring)
          | obj kvs' => simp only [hj, hrec]; exact congrArg _ (by ring)
      | null => simp [nonTerminalResp, hp] at h0
      | bool b => simp [nonTerminalResp, hp] at h0
      | str sv => simp [nonTerminalResp, hp] at h0
      | num nv => simp [nonTerminalResp, hp] at h0
      | arr xs => simp [nonTerminalResp, hp] at h0

theorem pollLoop_succeeded_of (poll : Nat → Option Json) :
    ∀ (k fuel start : Nat) (body : Json), k < fuel →
      (∀ m, m < k → poll (start + m) = none) →
      poll (start + k) = some body → isSucceededBody body = true →
      (pollLoop poll start fuel).1 = .succeeded body := by
  intro k
  induction k with
  | zero =>
    intro fuel start body hk hnone hbody hsucc
    cases fuel with
    | zero => omega
    | succ fuel =>
      rw [pollLoop]
      simp only [Nat.add_zero] at hbody
      rw [hbody]
      cases body with
      | obj kvs =>
        simp only [isSucceededBody] at hsucc
        cases hj : jget kvs "status" with
        | none => rw [hj] at hsucc; exact absurd hsucc (by simp)
        | some v =>
          cases v with
          | str st =>
            rw [hj] at hsucc
            have : st = "succeeded" := by simpa using hsucc
            simp [hj, this]
          | null => rw [hj] at hsucc; exact absurd hsucc (by simp)
          | bool b => rw [hj] at hsucc; exact absurd hsucc (by simp)
          | num n => rw [hj] at hsucc; exact absurd hsucc (by simp)
          | arr xs => rw [hj] at hsucc; exact absurd hsucc (by simp)
          | obj kvs' => rw [hj] at hsucc; exact absurd hsucc (by simp)
      | null => simp [isSucceededBody] at hsucc
      | bool b => simp [isSucceededBody] at hsucc
      | str sv => simp [isSucceededBody] at hsucc
      | num nv => simp [isSucceededBody] at hsucc
      | arr xs => simp [isSucceededBody] at hsucc
  | succ k ih =>
    intro fuel start body hk hnone hbody hsucc
    cases fuel with
    | zero => omega
    | succ fuel =>
      rw [pollLoop]
      have h0 : poll start = none := by simpa using hnone 0 (by omega)
      rw [h0]
      have := ih fuel (start + 1) body (by omega)
        (fun m hm => by
          have := hnone (m + 1) (by omega)
          simpa [Nat.add_assoc, Nat.add_comm 1 m] using this)
        (by simpa [Nat.add_assoc, Nat.add_comm 1 k] using hbody) hsucc
      simpa using this

theorem error_bind {α β : Type} (f : α → Except Unit β) :
    (Except.error () >>= f) = (Except.error () : Except Unit β) := rfl

/-! ### Claim theorems -/

/-- C1: for every logged-in user `uid` and supplier row `s`, the index
listing contains `s` iff `s.user_id = some uid`; consequently a row with a
null `user_id` appears in no user's listing, and a row owned by another
user never appears. -/
theorem index_listing_ownership (db : List Supplier) (uid : Nat) (s : Supplier) :
    (s ∈ db → (s ∈ index db uid "" "" ↔ s.user_id = some uid)) ∧
    (s.user_id = none → s ∉ index db uid "" "") ∧
    (∀ owner, s.user_id = some owner → owner ≠ uid → s ∉ index db uid "" "") := by
  refine ⟨fun hmem => ?_, fun hnull => ?_, fun owner howner hne => ?_⟩
  · rw [mem_index]
    simp [rowMatches, pyStrip_empty, hmem]
  · rw [mem_index]
    simp [rowMatches, pyStrip_empty, hnull]
  · rw [mem_index]
    simp [rowMatches, pyStrip_empty, howner, hne]

/-- C1 witness: on a concrete two-user database the owner sees their row,
the other user does not, and an unowned row is invisible to both. -/
theorem index_listing_ownership_witness :
    let s₁ : Supplier :=
      ⟨1, "Acme", "carrelage", "", "", "", "", "green", "", "",
        "2024-01-01 00:00:00", some 1⟩
    let s₂ : Supplier :=
      ⟨2, "Bobs", "cuisine", "", "", "", "", "red", "", "",
        "2024-01-02 00:00:00", none⟩
    s₁ ∈ [s₁, s₂] ∧ s₁.user_id = some 1 ∧
    s₁ ∈ index [s₁, s₂] 1 "" "" ∧ s₁ ∉ index [s₁, s₂] 2 "" "" ∧
    s₂ ∉ index [s₁, s₂] 1 "" "" ∧ s₂ ∉ index [s₁, s₂] 2 "" "" := by
  intro s₁ s₂
  refine ⟨by decide, by decide, ?_, ?_, ?_, ?_⟩
  · exact ((index_listing_ownership [s₁, s₂] 1 s₁).1 (by decide)).mpr (by decide)
  · exact (index_listing_ownership [s₁, s₂] 2 s₁).2.2 1 (by decide) (by decide)
  · exact (index_listing_ownership [s₁, s₂] 1 s₂).2.1 (by decide)
  · exact (index_listing_ownership [s₁, s₂] 2 s₂).2.1 (by decide)

/-- C6 counterexample: the handler ignores the repeatable `rating` query
parameter entirely, so with `rating=green` supplied, a listing still
contains a red-rated row — the claim's rating-set filter does not hold as
stated. -/
theorem index_req_ignores_rating_filter :
    ¬ (∀ s ∈ index_req
          [⟨1, "Acme", "carrelage", "", "", "", "", "red", "", "",
            "2024-01-01 00:00:00", some 1⟩] 1
          ⟨"", "", ["green"], []⟩,
        ratingFilterSat ["green"] s = true) := by
  intro hall
  have hmem : (⟨1, "Acme", "carrelage", "", "", "", "", "red", "", "",
      "2024-01-01 00:00:00", some 1⟩ : Supplier) ∈ index_req
        [⟨1, "Acme", "carrelage", "", "", "", "", "red", "", "",
          "2024-01-01 00:00:00", some 1⟩] 1 ⟨"", "", ["green"], []⟩ := by
    rw [show (index_req
        [⟨1, "Acme", "carrelage", "", "", "", "", "red", "", "",
          "2024-01-01 00:00:00", some 1⟩] 1 ⟨"", "", ["green"], []⟩) =
        index [⟨1, "Acme", "carrelage", "", "", "", "", "red", "", "",
          "2024-01-01 00:00:00", some 1⟩] 1 "" "" from rfl, mem_index]
    exact ⟨by decide, by decide⟩
  have := hall _ hmem
  simp [ratingFilterSat] at this

/-- C6 (amended): the listing applies the AND of the ownership scope and
the case-insensitive free-text substring filter only; the repeatable
`rating` and `category` parameters are read by neither branch of the
handler and have no effect on the result. -/
theorem index_req_filters (db : List Supplier) (uid : Nat) (args : QueryArgs)
    (s : Supplier) :
    (s ∈ index_req db uid args ↔
      s ∈ db ∧ s.user_id = some uid ∧ searchFilterSat args.search s = true) ∧
    (∀ ratings categories ratings' categories',
      index_req db uid ⟨args.search, args.sort, ratings, categories⟩ =
        index_req db uid ⟨args.search, args.sort, ratings', categories'⟩) := by
  constructor
  · rw [show index_req db uid args = index db uid args.search args.sort from rfl,
      mem_index]
    simp [rowMatches, searchFilterSat, and_assoc]
  · intro _ _ _ _
    rfl

/-- C7: with sort key `rating`, the returned sequence is ordered green,
then yellow, then red, then any other rating value, with ties broken by
creation time descending and then case-insensitive name ascending; it is
a permutation of the owner's filtered rows. -/
theorem index_rating_sort_order (db : List Supplier) (uid : Nat) :
    (index db uid "" "rating").Pairwise (fun a b =>
      ratingRank a.rating < ratingRank b.rating ∨
        (ratingRank a.rating = ratingRank b.rating ∧
          (b.created_at < a.created_at ∨
            (a.created_at = b.created_at ∧
              lowerStr a.name ≤ lowerStr b.name)))) ∧
    (index db uid "" "rating").Perm (db.filter (rowMatches uid "")) := by
  have hidx : index db uid "" "rating" =
      (db.filter (rowMatches uid (pyStrip ""))).mergeSort ratingLe := by
    unfold index
    rw [pyStrip_rating]
    rw [if_neg (by decide), if_pos rfl]
  rw [hidx, pyStrip_empty]
  constructor
  · exact (List.sorted_mergeSort ratingLe_trans ratingLe_total _).imp
      (fun h => (ratingLe_iff _ _).mp h)
  · exact List.mergeSort_perm _ _

/-- C2: for the per-supplier routes (view, edit, delete) with a logged-in
session — a missing row yields 404; a row owned by a different user
yields 403 with the database and the files unchanged; a row with a null
`user_id` is never rejected with 403. -/
theorem per_supplier_routes_auth (sf : String → String) (db : List Supplier)
    (files : List String) (uid sid : Nat) (method : Method)
    (form : SupplierForm) (pu cu : Option String) :
    (getSupplier db sid = none →
      view_supplier db files uid sid = (.notFound, files) ∧
      edit_supplier sf db files uid sid method form pu cu = (.notFound, db, files) ∧
      delete_supplier db files uid sid = (.notFound, db, files)) ∧
    (∀ s owner, getSupplier db sid = some s → s.user_id = some owner →
      owner ≠ uid →
      view_supplier db files uid sid = (.forbidden, files) ∧
      edit_supplier sf db files uid sid method form pu cu = (.forbidden, db, files) ∧
      delete_supplier db files uid sid = (.forbidden, db, files)) ∧
    (∀ s, getSupplier db sid = some s → s.user_id = none →
      (view_supplier db files uid sid).1 ≠ .forbidden ∧
      (edit_supplier sf db files uid sid method form pu cu).1 ≠ .forbidden ∧
      (delete_supplier db files uid sid).1 ≠ .forbidden) := by
  refine ⟨fun hnone => ?_, fun s owner hs howner hne => ?_, fun s hs hnull => ?_⟩
  · simp [view_supplier, edit_supplier, delete_supplier, hnone]
  · have hd : ownDenied s uid = true := by
      simp [ownDenied, howner, hne]
    simp [view_supplier, edit_supplier, delete_supplier, hs, hd]
  · have hd : ownDenied s uid = false := by
      simp [ownDenied, hnull]
    refine ⟨?_, ?_, ?_⟩
    · simp [view_supplier, hs, hd]
    · cases method <;> simp [edit_supplier, hs, hd]
    · simp [delete_supplier, hs, hd]

/-- C2 witness: on concrete databases, a missing id gives 404 on all
three routes, another user's row gives 403 on all three, and a
null-owner row is not rejected on any of the three. -/
theorem per_supplier_routes_auth_witness :
    let sOwned : Supplier :=
      ⟨5, "Acme", "carrelage", "", "", "", "", "", "", "", "t", some 2⟩
    let sNull : Supplier :=
      ⟨6, "Bobs", "cuisine", "", "", "", "", "", "", "", "t", none⟩
    let form : SupplierForm := ⟨"N", "cuisine", "", "", "", "", ""⟩
    (view_supplier [] [] 1 5 = (.notFound, []) ∧
      edit_supplier id [] [] 1 5 .get form none none = (.notFound, [], []) ∧
      delete_supplier [] [] 1 5 = (.notFound, [], [])) ∧
    (view_supplier [sOwned] [] 1 5 = (.forbidden, []) ∧
      edit_supplier id [sOwned] [] 1 5 .get form none none =
        (.forbidden, [sOwned], []) ∧
      delete_supplier [sOwned] [] 1 5 = (.forbidden, [sOwned], [])) ∧
    ((view_supplier [sNull] [] 1 6).1 ≠ .forbidden ∧
      (edit_supplier id [sNull] [] 1 6 .get form none none).1 ≠ .forbidden ∧
      (delete_supplier [sNull] [] 1 6).1 ≠ .forbidden) := by
  intro sOwned sNull form
  refine ⟨?_, ?_, ?_⟩
  · exact (per_supplier_routes_auth id [] [] 1 5 .get form none none).1 (by decide)
  · exact (per_supplier_routes_auth id [sOwned] [] 1 5 .get form none none).2.1
      sOwned 2 (by decide) (by decide) (by decide)
  · exact (per_supplier_routes_auth id [sNull] [] 1 6 .get form none none).2.2
      sNull (by decide) (by decide)

/-- C3: deleting supplier `s` removes its row (a subsequent lookup is
`none`), removes its photo and catalog files when set, and removes every
file whose name starts with `whatsapp_qr_<id>` or `wechat_qr_<id>`; the
quantification over every starting directory content `files` — including
directories missing the photo or catalog file — shows a delete of an
already-missing file is swallowed, the handler still redirecting. -/
theorem delete_supplier_removes (db : List Supplier) (files : List String)
    (uid sid : Nat) (s : Supplier)
    (hs : getSupplier db sid = some s) (hown : ownDenied s uid = false) :
    (delete_supplier db files uid sid).1 = .redirectIndex ∧
    getSupplier (delete_supplier db files uid sid).2.1 sid = none ∧
    (s.photo_filename ≠ "" →
      s.photo_filename ∉ (delete_supplier db files uid sid).2.2) ∧
    (s.catalog_filename ≠ "" →
      s.catalog_filename ∉ (delete_supplier db files uid sid).2.2) ∧
    (∀ f ∈ (delete_supplier db files uid sid).2.2,
      startsWithB f ("whatsapp_qr_" ++ toString sid) = false ∧
      startsWithB f ("wechat_qr_" ++ toString sid) = false) := by
  refine ⟨?_, ?_, ?_, ?_, ?_⟩
  · simp [delete_supplier, hs, hown]
  · simp only [delete_supplier, hs, hown, Bool.false_eq_true, if_false]
    simp only [getSupplier, List.find?_eq_none]
    intro r hr
    rcases List.mem_filter.mp hr with ⟨-, hr2⟩
    simpa using hr2
  · intro hp
    have hp' : (s.photo_filename != "") = true := by simpa using hp
    by_cases hc : (s.catalog_filename != "") = true <;>
      simp [delete_supplier, hs, hown, hp', hc, removeFile, List.mem_filter]
  · intro hc
    have hc' : (s.catalog_filename != "") = true := by simpa using hc
    by_cases hp : (s.photo_filename != "") = true <;>
      simp [delete_supplier, hs, hown, hp, hc', removeFile, List.mem_filter]
  · intro f hmem
    simp only [delete_supplier, hs, hown, Bool.false_eq_true, if_false] at hmem
    have h := (List.mem_filter.mp hmem).2
    simp only [Bool.not_eq_eq_eq_not, Bool.not_true, Bool.or_eq_false_iff] at h
    exact ⟨h.1, h.2⟩

/-- C3 witness: deleting a concrete supplier with a photo, a catalog and
two QR files removes all of them and the row; rerunning with the photo
file already missing from the directory still redirects. -/
theorem delete_supplier_removes_witness :
    let s : Supplier :=
      ⟨5, "Acme", "carrelage", "", "", "", "", "", "p.png", "c.pdf", "t", some 1⟩
    ((delete_supplier [s] ["p.png", "c.pdf", "whatsapp_qr_5.png",
        "wechat_qr_5_1.png", "other.png"] 1 5).1 = .redirectIndex ∧
      getSupplier (delete_supplier [s] ["p.png", "c.pdf", "whatsapp_qr_5.png",
        "wechat_qr_5_1.png", "other.png"] 1 5).2.1 5 = none ∧
      "p.png" ∉ (delete_supplier [s] ["p.png", "c.pdf", "whatsapp_qr_5.png",
        "wechat_qr_5_1.png", "other.png"] 1 5).2.2 ∧
      "c.pdf" ∉ (delete_supplier [s] ["p.png", "c.pdf", "whatsapp_qr_5.png",
        "wechat_qr_5_1.png", "other.png"] 1 5).2.2) ∧
    (delete_supplier [s] ["other.png"] 1 5).1 = .redirectIndex := by
  intro s
  have h₁ := delete_supplier_removes [s]
    ["p.png", "c.pdf", "whatsapp_qr_5.png", "wechat_qr_5_1.png", "other.png"]
    1 5 s (by decide) (by decide)
  have h₂ := delete_supplier_removes [s] ["other.png"] 1 5 s (by decide) (by decide)
  exact ⟨⟨h₁.1, h₁.2.1, h₁.2.2.1 (by decide), h₁.2.2.2.1 (by decide)⟩, h₂.1⟩

/-- C10: on an edit POST whose replacement photo (resp. catalogue) upload
has a name that the store rejects (`allowed_file` false on the sanitized
name), the handler deletes the old file first and then persists the empty
marker, so the supplier loses its existing attachment. -/
theorem edit_rejected_replacement_loses_attachment (sf : String → String)
    (db : List Supplier) (files : List String) (uid sid : Nat)
    (form : SupplierForm) (s : Supplier)
    (hs : getSupplier db sid = some s) (hown : ownDenied s uid = false) :
    (∀ pf, pf ≠ "" → allowed_file (sf pf) = false → s.photo_filename ≠ "" →
      (edit_supplier sf db files uid sid .post form (some pf) none).1 =
        .redirectIndex ∧
      (∃ s', getSupplier
          (edit_supplier sf db files uid sid .post form (some pf) none).2.1 sid =
          some s' ∧ s'.photo_filename = "") ∧
      s.photo_filename ∉
        (edit_supplier sf db files uid sid .post form (some pf) none).2.2) ∧
    (∀ cf, cf ≠ "" → allowed_file (sf cf) = false → s.catalog_filename ≠ "" →
      (edit_supplier sf db files uid sid .post form none (some cf)).1 =
        .redirectIndex ∧
      (∃ s', getSupplier
          (edit_supplier sf db files uid sid .post form none (some cf)).2.1 sid =
          some s' ∧ s'.catalog_filename = "") ∧
      s.catalog_filename ∉
        (edit_supplier sf db files uid sid .post form none (some cf)).2.2) := by
  have hid : s.id = sid := by
    have := List.find?_some (by simpa [getSupplier] using hs)
    simpa using this
  constructor
  · intro pf hpf hrej hphoto
    have hpf' : (pf != "") = true := by simpa using hpf
    have hphoto' : (s.photo_filename != "") = true := by simpa using hphoto
    have hsave : save_upload sf (removeFile files s.photo_filename) (some pf) =
        ("", removeFile files s.photo_filename) := by
      simp [save_upload, hpf, hrej]
    have hstep : edit_supplier sf db files uid sid .post form (some pf) none =
        (.redirectIndex,
          db.map (fun r => if r.id = sid then
            { r with
              name := pyStrip form.name, category := pyStrip form.category,
              description := pyStrip form.description,
              contact := pyStrip form.contact,
              whatsapp_link := pyStrip form.whatsapp,
              wechat_link := pyStrip form.wechat,
              rating := pyStrip form.rating, photo_filename := "",
              catalog_filename := s.catalog_filename }
          else r),
          removeFile files s.photo_filename) := by
      simp only [edit_supplier, hs, hown, Bool.false_eq_true, if_false, hpf',
        if_true, hphoto', hsave]
    rw [hstep]
    refine ⟨rfl, ?_, ?_⟩
    · refine ⟨if s.id = sid then
        { s with
          name := pyStrip form.name, category := pyStrip form.category,
          description := pyStrip form.description,
          contact := pyStrip form.contact,
          whatsapp_link := pyStrip form.whatsapp,
          wechat_link := pyStrip form.wechat,
          rating := pyStrip form.rating, photo_filename := "",
          catalog_filename := s.catalog_filename }
        else s, ?_, ?_⟩
      · rw [getSupplier_map _ _ _ (fun r => by split <;> rfl), hs,
          Option.map_some']
      · simp [hid]
    · simp [mem_removeFile]
  · intro cf hcf hrej hcat
    have hcf' : (cf != "") = true := by simpa using hcf
    have hcat' : (s.catalog_filename != "") = true := by simpa using hcat
    have hsave : save_upload sf (removeFile files s.catalog_filename) (some cf) =
        ("", removeFile files s.catalog_filename) := by
      simp [save_upload, hcf, hrej]
    have hstep : edit_supplier sf db files uid sid .post form none (some cf) =
        (.redirectIndex,
          db.map (fun r => if r.id = sid then
            { r with
              name := pyStrip form.name, category := pyStrip form.category,
              description := pyStrip form.description,
              contact := pyStrip form.contact,
              whatsapp_link := pyStrip form.whatsapp,
              wechat_link := pyStrip form.wechat,
              rating := pyStrip form.rating,
              photo_filename := s.photo_filename, catalog_filename := "" }
          else r),
          removeFile files s.catalog_filename) := by
      simp only [edit_supplier, hs, hown, Bool.false_eq_true, if_false, hcf',
        if_true, hcat', hsave]
    rw [hstep]
    refine ⟨rfl, ?_, ?_⟩
    · refine ⟨if s.id = sid then
        { s with
          name := pyStrip form.name, category := pyStrip form.category,
          description := pyStrip form.description,
          contact := pyStrip form.contact,
          whatsapp_link := pyStrip form.whatsapp,
          wechat_link := pyStrip form.wechat,
          rating := pyStrip form.rating,
          photo_filename := s.photo_filename, catalog_filename := "" }
        else s, ?_, ?_⟩
      · rw [getSupplier_map _ _ _ (fun r => by split <;> rfl), hs,
          Option.map_some']
      · simp [hid]
    · simp [mem_removeFile]

/-- C10 witness: a concrete edit POST replacing a stored photo with
`virus.exe` (a disallowed extension) redirects, persists an empty
`photo_filename`, and leaves the old photo file deleted; symmetrically
for the catalogue with a name that sanitizes to a rejected value. -/
theorem edit_rejected_replacement_loses_attachment_witness :
    let s : Supplier :=
      ⟨5, "Acme", "carrelage", "", "", "", "", "", "old.png", "old.pdf", "t",
        some 1⟩
    let form : SupplierForm := ⟨"Acme", "carrelage", "", "", "", "", ""⟩
    ((edit_supplier id [s] ["old.png", "old.pdf"] 1 5 .post form
        (some "virus.exe") none).1 = .redirectIndex ∧
      (∃ s', getSupplier (edit_supplier id [s] ["old.png", "old.pdf"] 1 5 .post
          form (some "virus.exe") none).2.1 5 = some s' ∧
          s'.photo_filename = "") ∧
      "old.png" ∉ (edit_supplier id [s] ["old.png", "old.pdf"] 1 5 .post form
        (some "virus.exe") none).2.2) ∧
    ((edit_supplier id [s] ["old.png", "old.pdf"] 1 5 .post form none
        (some "virus.exe")).1 = .redirectIndex ∧
      (∃ s', getSupplier (edit_supplier id [s] ["old.png", "old.pdf"] 1 5 .post
          form none (some "virus.exe")).2.1 5 = some s' ∧
          s'.catalog_filename = "") ∧
      "old.pdf" ∉ (edit_supplier id [s] ["old.png", "old.pdf"] 1 5 .post form
        none (some "virus.exe")).2.2) := by
  intro s form
  have h := edit_rejected_replacement_loses_attachment id [s]
    ["old.png", "old.pdf"] 1 5 form s (by decide) (by decide)
  exact ⟨h.1 "virus.exe" (by decide) (by decide) (by decide),
    h.2 "virus.exe" (by decide) (by decide) (by decide)⟩

/-- C4 counterexample: the open-redirect guard does not hold for all
absolute/foreign `next` values — the protocol-relative value
`//evil.example/` is not a same-origin relative path, yet it passes the
`startswith('/')` guard, and a successful login redirects to it rather
than to the index. -/
theorem login_open_redirect_counterexample :
    login (fun _ _ => true) [⟨1, "a@b.c", "h"⟩] "a@b.c" "pw"
        (some "//evil.example/") = .redirectTo "//evil.example/" ∧
    isSameOriginRelativePath "//evil.example/" = false ∧
    ("//evil.example/" : String) ≠ "/" := by
  refine ⟨by decide, by decide, by decide⟩

/-- C4 (amended): on successful login the guard is exactly
`startswith('/')` — a `next` value starting with `/` is redirected to
(including protocol-relative `//host/...` values), and every other value
(absent, empty, or with an explicit scheme such as `http://evil.example/`)
is replaced by the index. -/
theorem login_redirect_guard (ch : String → String → Bool) (users : List User)
    (u p np : String) (row : User)
    (hrow : users.find? (fun x => x.username == pyStrip u) = some row)
    (hok : ch row.password_hash p = true) :
    (startsWithB np "/" = true →
      login ch users u p (some np) = .redirectTo np) ∧
    ((np = "" ∨ startsWithB np "/" = false) →
      login ch users u p (some np) = .redirectTo "/") := by
  constructor
  · intro hsw
    have hne : np ≠ "" := by
      intro h
      subst h
      exact absurd hsw (by decide)
    simp [login, hrow, hok, hsw, hne]
  · intro hcase
    rcases hcase with h | h
    · subst h
      simp [login, hrow, hok]
    · by_cases hnp : np = ""
      · subst hnp
        simp [login, hrow, hok]
      · simp [login, hrow, hok, h, hnp]

/-- C4 witness: with a concrete user, `next=/supplier/5` redirects to
`/supplier/5` and `next=http://evil.example/` redirects to the index. -/
theorem login_redirect_guard_witness :
    login (fun _ _ => true) [⟨1, "a@b.c", "h"⟩] "a@b.c" "pw"
        (some "/supplier/5") = .redirectTo "/supplier/5" ∧
    login (fun _ _ => true) [⟨1, "a@b.c", "h"⟩] "a@b.c" "pw"
        (some "http://evil.example/") = .redirectTo "/" := by
  constructor
  · exact (login_redirect_guard (fun _ _ => true) [⟨1, "a@b.c", "h"⟩]
      "a@b.c" "pw" "/supplier/5" ⟨1, "a@b.c", "h"⟩ (by decide) rfl).1 (by decide)
  · exact (login_redirect_guard (fun _ _ => true) [⟨1, "a@b.c", "h"⟩]
      "a@b.c" "pw" "http://evil.example/" ⟨1, "a@b.c", "h"⟩ (by decide) rfl).2
      (Or.inr (by decide))

/-- C5: registration (GET or POST) is rejected with Forbidden — and no
user row is inserted — whenever users exist and the caller's session is
not the admin identity; it is not rejected when the table is empty or the
caller is admin. -/
theorem register_gate (hash : String → String) (users : List User)
    (sess : Option String) (method : Method) (u p c : String) :
    (users ≠ [] → is_admin sess = false →
      register hash users sess method u p c = (.forbidden, users)) ∧
    ((users = [] ∨ is_admin sess = true) →
      (register hash users sess method u p c).1 ≠ .forbidden) := by
  constructor
  · intro hne hadmin
    have h0 : 0 < users.length := List.length_pos.mpr hne
    simp [register, hadmin, h0]
  · intro hcase
    have hcond : (decide (users.length > 0) && !is_admin sess) = false := by
      rcases hcase with h | h
      · subst h; simp
      · simp [h]
    cases method <;>
      simp only [register, hcond, Bool.false_eq_true, if_false] <;>
      (try split_ifs) <;> simp

/-- C5 witness: with one existing user an anonymous POST is rejected with
Forbidden and the table is unchanged; with an empty table the bootstrap
registration is not rejected. -/
theorem register_gate_witness :
    register id [⟨1, "x@y.z", "h"⟩] none .post "new@u.v" "pw" "pw" =
      (.forbidden, [⟨1, "x@y.z", "h"⟩]) ∧
    (register id [] none .post "first@u.v" "pw" "pw").1 ≠ .forbidden := by
  constructor
  · exact (register_gate id [⟨1, "x@y.z", "h"⟩] none .post "new@u.v" "pw"
      "pw").1 (by decide) (by decide)
  · exact (register_gate id [] none .post "first@u.v" "pw" "pw").2 (Or.inl rfl)

/-- C9: `save_upload` never overwrites — an accepted upload is stored
under a name not previously present (the sanitized name itself when free,
else a numeric suffix), and a second save of the same source filename
returns a different name with both files still present. -/
theorem save_upload_never_overwrites (sf : String → String)
    (files : List String) (fn : String)
    (h1 : (save_upload sf files (some fn)).1 ≠ "") :
    (save_upload sf files (some fn)).1 ∉ files ∧
    (save_upload sf files (some fn)).1 ∈ (save_upload sf files (some fn)).2 ∧
    (sf fn ∉ files → (save_upload sf files (some fn)).1 = sf fn) ∧
    (save_upload sf (save_upload sf files (some fn)).2 (some fn)).1 ≠ "" ∧
    (save_upload sf (save_upload sf files (some fn)).2 (some fn)).1 ≠
      (save_upload sf files (some fn)).1 ∧
    (save_upload sf files (some fn)).1 ∈
      (save_upload sf (save_upload sf files (some fn)).2 (some fn)).2 ∧
    (save_upload sf (save_upload sf files (some fn)).2 (some fn)).1 ∈
      (save_upload sf (save_upload sf files (some fn)).2 (some fn)).2 := by
  by_cases hfn : fn = ""
  · simp [save_upload, hfn] at h1
  by_cases hall : allowed_file (sf fn) = true
  · have hrun : ∀ fs : List String, save_upload sf fs (some fn) =
        (uniqueName fs (sf fn) (splitext (sf fn)).1 (splitext (sf fn)).2,
          uniqueName fs (sf fn) (splitext (sf fn)).1 (splitext (sf fn)).2 :: fs) := by
      intro fs
      simp [save_upload, hfn, hall]
    have hne : sf fn ≠ "" := allowed_file_ne_empty _ hall
    have hu1 := uniqueName_not_mem files (sf fn) (splitext (sf fn)).1
      (splitext (sf fn)).2
    refine ⟨?_, ?_, ?_, ?_, ?_, ?_, ?_⟩
    · rw [hrun]; exact hu1
    · rw [hrun]; exact List.mem_cons_self _ _
    · intro hfree
      rw [hrun]
      simp [uniqueName, hfree]
    · rw [hrun, hrun]
      exact uniqueName_ne_empty _ _ _ _ hne
    · rw [hrun, hrun]
      dsimp only
      intro heq
      have hmem := uniqueName_not_mem
        (uniqueName files (sf fn) (splitext (sf fn)).1 (splitext (sf fn)).2 ::
          files) (sf fn) (splitext (sf fn)).1 (splitext (sf fn)).2
      rw [heq] at hmem
      exact hmem (List.mem_cons_self _ _)
    · rw [hrun, hrun]
      dsimp only
      exact List.mem_cons_of_mem _ (List.mem_cons_self _ _)
    · rw [hrun, hrun]
      dsimp only
      exact List.mem_cons_self _ _
  · have : (save_upload sf files (some fn)).1 = "" := by
      simp [save_upload, hfn, hall]
    exact absurd this h1

/-- C9 witness: saving `photo.png` into an empty directory stores it
under its own name; saving it again stores `photo_1.png`; the two names
differ and both are present. -/
theorem save_upload_never_overwrites_witness :
    (save_upload (fun s => s) [] (some "photo.png")).1 = "photo.png" ∧
    (save_upload (fun s => s) [] (some "photo.png")).1 ∉ ([] : List String) ∧
    (save_upload (fun s => s)
      (save_upload (fun s => s) [] (some "photo.png")).2 (some "photo.png")).1 =
      "photo_1.png" ∧
    (save_upload (fun s => s)
      (save_upload (fun s => s) [] (some "photo.png")).2 (some "photo.png")).1 ≠
      (save_upload (fun s => s) [] (some "photo.png")).1 ∧
    (save_upload (fun s => s) [] (some "photo.png")).1 ∈
      (save_upload (fun s => s)
        (save_upload (fun s => s) [] (some "photo.png")).2 (some "photo.png")).2 ∧
    (save_upload (fun s => s)
      (save_upload (fun s => s) [] (some "photo.png")).2 (some "photo.png")).1 ∈
      (save_upload (fun s => s)
        (save_upload (fun s => s) [] (some "photo.png")).2 (some "photo.png")).2 := by
  have h := save_upload_never_overwrites (fun s => s) [] "photo.png" (by decide)
  exact ⟨by decide, h.1, by decide, h.2.2.2.2.1, h.2.2.2.2.2.1, h.2.2.2.2.2.2⟩

/-- C8: after an accepted submission the route runs the 1-second,
30-attempt poll loop; poll exceptions are swallowed and retried; if no
terminal status is seen within the ceiling the result is the Incomplete
error (after 30 model-seconds of sleeping); and on a succeeded status the
extraction is total — a structurally mismatched body yields empty values
rather than a failure, the result always being a well-formed
name/phone pair. -/
theorem analyze_card_poll_behavior (poll : Nat → Option Json)
    (fname endpoint key loc : String) :
    (fname ≠ "" → endpoint ≠ "" → key ≠ "" → loc ≠ "" →
      analyze_card (some fname) (some endpoint) (some key)
        (.resp 202 (some loc)) poll = analyze_poll poll) ∧
    ((∀ i < pollAttempts, nonTerminalResp (poll i) = true) →
      analyze_poll poll = .errIncomplete ∧
      (pollLoop poll 0 pollAttempts).2 = pollAttempts * pollIntervalSeconds) ∧
    (∀ k body, k < pollAttempts → (∀ m < k, poll m = none) →
      poll k = some body → isSucceededBody body = true →
      analyze_poll poll =
        .ok (extractNamePhone body).1 (extractNamePhone body).2) ∧
    (∀ body, pyGetItem body "analyzeResult" = .error () →
      extractNamePhone body = ("", .str "")) := by
  refine ⟨?_, ?_, ?_, ?_⟩
  · intro hf he hk hl
    simp [analyze_card, hf, he, hk, hl]
  · intro h
    have hloop := pollLoop_incomplete poll pollAttempts 0
      (fun i _ hi => h i (by simpa using hi))
    exact ⟨by simp [analyze_poll, hloop], by simp [hloop]⟩
  · intro k body hk hnone hbody hsucc
    have hloop := pollLoop_succeeded_of poll k pollAttempts 0 body hk
      (fun m hm => by simpa using hnone m hm) (by simpa using hbody) hsucc
    simp [analyze_poll, hloop]
  · intro body herr
    simp [extractNamePhone, herr, error_bind]

/-- C8 witness: a poll that always raises yields the Incomplete error
after 30 sleep-seconds; a raise on the first attempt followed by a
succeeded status on the second yields a well-formed (empty) pair; a
`null` body has no `analyzeResult` and extracts to empty values. -/
theorem analyze_card_poll_behavior_witness :
    analyze_card (some "card.jpg") (some "https://endpoint") (some "key")
      (.resp 202 (some "https://op")) (fun _ => none) =
      analyze_poll (fun _ => none) ∧
    analyze_poll (fun _ => none) = .errIncomplete ∧
    (pollLoop (fun _ => none) 0 pollAttempts).2 =
      pollAttempts * pollIntervalSeconds ∧
    analyze_poll (fun i =>
      if i = 0 then none else some (.obj [("status", .str "succeeded")])) =
      .ok "" (.str "") ∧
    extractNamePhone .null = ("", .str "") := by
  refine ⟨?_, ?_, ?_, ?_, ?_⟩
  · exact (analyze_card_poll_behavior (fun _ => none) "card.jpg"
      "https://endpoint" "key" "https://op").1 (by decide) (by decide)
      (by decide) (by decide)
  · exact ((analyze_card_poll_behavior (fun _ => none) "x" "e" "k" "l").2.1
      (fun i _ => rfl)).1
  · exact ((analyze_card_poll_behavior (fun _ => none) "x" "e" "k" "l").2.1
      (fun i _ => rfl)).2
  · have h := (analyze_card_poll_behavior (fun i =>
        if i = 0 then none else some (.obj [("status", .str "succeeded")]))
        "x" "e" "k" "l").2.2.1 1 (.obj [("status", .str "succeeded")])
      (by decide) (fun m hm => by interval_cases m; rfl) rfl rfl
    rw [h]
    rfl
  · exact (analyze_card_poll_behavior (fun _ => none) "x" "e" "k" "l").2.2.2
      .null rfl

end SupplierApp
